import Mathlib

/-!
Verification of the infrasim-compute node composition engine
(`src/infrasim/model.py`) against its natural-language specification.

Python constructs are shallowly embedded:
* dictionaries holding optional descriptor keys become structures of
  `Option` fields (`none` = key absent);
* Python string formatting (`"{}".format`, `",".join`, `" ".join`)
  becomes `String` append / `String.intercalate`;
* Python integers become `Int` (or `Nat` for indices that are
  always non-negative); Python 2 `/` on ints is floor division,
  which for the positive divisors used here agrees with `Int` `/`;
* filesystem / process state (pid files, `/proc`) becomes explicit
  state records threaded through the functions;
* exceptions become `Except` / `Option` results.

Line numbers in comments refer to `src/infrasim/model.py`.
-/

/-- Kinds of errors raised by the model layer (infrasim exception classes). -/
inductive InfrasimError where
  | ArgsNotCorrect (msg : String)
  | CommandRunFailed (cmd : String)
  | CommandNotFound (cmd : String)
  deriving Repr, DecidableEq

/-- Python `str.startswith`, expressed on the character lists backing `String`. -/
def pyStartsWith (s pat : String) : Bool :=
  List.isPrefixOf pat.data s.data

/-- Python `str.strip`: drop whitespace from both ends. -/
def pyStrip (s : String) : String :=
  String.mk (((s.data.dropWhile Char.isWhitespace).reverse.dropWhile
      Char.isWhitespace).reverse)

/-- Whether `pat` occurs as a contiguous substring of `s` (Python `pat in s`). -/
def containsSub (s pat : String) : Bool :=
  go s.data
where
  go : List Char → Bool
    | [] => List.isPrefixOf pat.data []
    | c :: cs => List.isPrefixOf pat.data (c :: cs) || go cs

/-- Python `"{:<6}".format(x)`: left-align, pad with spaces to width 6. -/
def pad6 (s : String) : String :=
  s ++ String.mk (List.replicate (6 - s.data.length) ' ')

/-! ## Option builder (`CElement`, model.py lines 91-118)

Every element owns a private `__option_list`.  `add_option` appends a
fragment unless it is `None` or already present (a duplicate only prints
a warning); `get_option` raises on an empty list and otherwise joins the
fragments with single spaces. -/

/-- `CElement.add_option` (lines 104-112): the updated option list. -/
def CElement.add_option (l : List String) (o : Option String) : List String :=
  match o with
  | none => l
  | some opt => if l.contains opt then l else l ++ [opt]

/-- Whether `CElement.add_option` prints the duplicate warning (line 109). -/
def CElement.add_option_warns (l : List String) (o : Option String) : Bool :=
  match o with
  | none => false
  | some opt => l.contains opt

/-- `CElement.get_option` (lines 114-118): `Exception` on an empty list,
otherwise `" ".join(option_list)`. -/
def CElement.get_option (l : List String) : Except String String :=
  if l.isEmpty then .error "No option in the list"
  else .ok (String.intercalate " " l)

/-- Specification-side description of the rendered string: the fragments
in insertion order, separated by single spaces.  Written independently of
`String.intercalate` so that `CElement.get_option` is checked against it. -/
def joinedBySpaces : List String → String
  | [] => ""
  | [x] => x
  | x :: y :: rest => x ++ " " ++ joinedBySpaces (y :: rest)

/-! ## CPU element (`CCPU`, model.py lines 121-172) -/

/-- The `cpu` sub-dictionary of a compute descriptor. -/
structure CPUInfo where
  type : Option String := none
  quantities : Option Int := none
  features : Option String := none

/-- Resolved `CCPU` attributes after `__init__` (lines 122-128) and
`init` (lines 147-158): defaults `type=host`, `features=+vmx`,
`quantities=2`; the socket count falls back to 2 when no
`socket_in_smbios` override was given. -/
structure CCPU where
  cpuType : String
  features : String
  quantities : Int
  socket : Int

/-- `CCPU.__init__` + `CCPU.init`. -/
def CCPU.init (cpu_info : CPUInfo) (socket_in_smbios : Option Int) : CCPU :=
  { cpuType := cpu_info.type.getD "host"
    features := cpu_info.features.getD "+vmx"
    quantities := cpu_info.quantities.getD 2
    socket := socket_in_smbios.getD 2 }

/-- `CCPU.precheck` (lines 133-145): `ArgsNotCorrect` when the quantity is
not positive, then when it is not divisible by the socket count.
(Python `%` and Lean `%` on `Int` agree for the positive divisors used.) -/
def CCPU.precheck (c : CCPU) : Except InfrasimError Unit :=
  if c.quantities ≤ 0 then
    .error (.ArgsNotCorrect ("[model:cpu] quantities invalid: " ++
      toString c.quantities ++ ", should be positive"))
  else if c.quantities % c.socket ≠ 0 then
    .error (.ArgsNotCorrect ("[model:cpu] quantities: " ++
      toString c.quantities ++ " is not divided by socket: " ++
      toString c.socket))
  else .ok ()

/-- `CCPU.handle_parms` (lines 160-172): push the `-cpu` fragment, then the
`-smp` fragment with `cores = quantities / socket` (floor division). -/
def CCPU.handle_parms (c : CCPU) : List String :=
  let cpu_option :=
    if c.features ≠ "" then "-cpu " ++ c.cpuType ++ "," ++ c.features
    else "-cpu " ++ c.cpuType
  let l := CElement.add_option [] (some cpu_option)
  let cores := c.quantities / c.socket
  let smp_option := "-smp " ++ toString c.quantities ++ ",sockets=" ++
    toString c.socket ++ ",cores=" ++ toString cores ++ ",threads=1"
  CElement.add_option l (some smp_option)

/-! ## Drive element (`CDrive`, model.py lines 198-365) -/

/-- One drive descriptor (`drive_info` dictionary). -/
structure DriveInfo where
  bootindex : Option String := none
  vendor : Option String := none
  model : Option String := none
  serial : Option String := none
  product : Option String := none
  version : Option String := none
  rotation : Option Nat := none
  format : Option String := none
  cache : Option String := none
  aio : Option String := none
  size : Option Nat := none
  file : Option String := none

/-- Resolved `CDrive` attributes after `init`. -/
structure DriveAttrs where
  bootindex : Option String
  vendor : Option String
  model : Option String
  serial : Option String
  product : Option String
  version : Option String
  rotation : Option Nat
  format : String
  cache : String
  aio : Option String
  size : Nat
  file : String

/-- `CDrive.__init__` defaults + `CDrive.init` (lines 241-300), after the
controller has called `set_index` / `set_controller_type`.  Mirrors the
source order: `vendor` is taken only under `megasas`/`megasas-gen2`
(lines 246-249); line 251-253 takes `model` under `ahci`, but lines
258-259 then assign `model` unconditionally whenever the key is present.
When no `file` is given the image path `<HOME>/.infrasim/sd<letter>.img`
is used (the `qemu-img create` child command is an external effect and is
not modelled); a `file` under `/dev/` forces `format = raw`. -/
def CDrive.init (home : String) (d : DriveInfo) (index : Nat)
    (controller_type : String) : DriveAttrs :=
  let vendor :=
    if controller_type = "megasas" || controller_type = "megasas-gen2" then
      d.vendor
    else none
  let model := if controller_type = "ahci" then d.model else none
  let model := match d.model with
    | some m => some m
    | none => model
  let format := d.format.getD "qcow2"
  let (file, format) :=
    match d.file with
    | some f => (f, if pyStartsWith f "/dev/" then "raw" else format)
    | none =>
      (home ++ "/.infrasim/" ++ "sd" ++
        String.singleton (Char.ofNat (97 + index)) ++ ".img", format)
  { bootindex := d.bootindex
    vendor := vendor
    model := model
    serial := d.serial
    product := d.product
    version := d.version
    rotation := d.rotation
    format := format
    cache := d.cache.getD "writeback"
    aio := d.aio
    size := d.size.getD 8
    file := file }

/-- Append `,key=value` when the value is present and truthy (a Python
`if self.__x:` test on a string is false exactly on `None` and `""`). -/
def appendTruthy (dev key : String) (v : Option String) : String :=
  match v with
  | some s => if s = "" then dev else dev ++ "," ++ key ++ "=" ++ s
  | none => dev

/-- A `key=value` piece guarded by Python truthiness: a `if self.__x:`
test on an optional string is false exactly on `None` and `""`. -/
def optPiece (key : String) (v : Option String) : List String :=
  match v with
  | some s => if s = "" then [] else [key ++ s]
  | none => []

/-- The `rotation` piece is guarded by `is not None` (line 354), so a
value is always formatted. -/
def rotPiece (v : Option Nat) : List String :=
  match v with
  | some r => ["rotation=" ++ toString r]
  | none => []

/-- The comma-separated pieces of the `-device` part built by
`CDrive.handle_parms` (lines 326-360), in source order: device type,
`vendor`, `model`, `product`, `serial`, `ver`, `bootindex`, `rotation`,
`bus`, `drive=drive<i>`.  The incremental `",".join` of the source equals
joining this list with commas. -/
def CDrive.deviceFields (a : DriveAttrs) (index : Nat)
    (controller_type : String) (bus : Option String) : List String :=
  let dev :=
    if controller_type = "ahci" then "ide-hd"
    else if pyStartsWith controller_type "megasas" ||
        pyStartsWith controller_type "lsi" then "scsi-hd"
    else "ide-hd"
  [dev]
  ++ optPiece "vendor=" a.vendor
  ++ optPiece "model=" a.model
  ++ optPiece "product=" a.product
  ++ optPiece "serial=" a.serial
  ++ optPiece "ver=" a.version
  ++ optPiece "bootindex=" a.bootindex
  ++ rotPiece a.rotation
  ++ optPiece "bus=" bus
  ++ ["drive=drive" ++ toString index]

/-- The `file=...` host part built by `CDrive.handle_parms`
(lines 303-324): `file`, `format`, `if=none`, `id=drive<i>`, `cache`,
and `aio` only when the cache mode is `none`. -/
def CDrive.hostFields (a : DriveAttrs) (index : Nat) : List String :=
  ["file=" ++ a.file]
  ++ (if a.format = "" then [] else ["format=" ++ a.format])
  ++ ["if=none", "id=drive" ++ toString index]
  ++ (if a.cache = "" then [] else ["cache=" ++ a.cache])
  ++ (match a.aio with
      | some aio =>
        if aio ≠ "" && a.cache = "none" then ["aio=" ++ aio] else []
      | none => [])

/-- `CDrive.handle_parms` (lines 302-365): the single fragment the drive
adds to its option list, or `none` for the `raise` on a missing file. -/
def CDrive.handle_parms (a : DriveAttrs) (index : Nat)
    (controller_type : String) (bus : Option String) : Option String :=
  if a.file = "" then none
  else some ("-drive " ++
    String.intercalate "," (CDrive.hostFields a index) ++
    " -device " ++
    String.intercalate "," (CDrive.deviceFields a index controller_type bus))

/-! ## Storage controller (`CStorageController`, model.py lines 368-446) -/

/-- The `controller` sub-dictionary of one storage-backend entry.
`use_jbod` carries the already-formatted value (`none` = key absent or
dropped because the controller is not `megasas*`, lines 395-398). -/
structure ControllerInfo where
  type : String
  max_drive_per_controller : Int
  use_jbod : Option String := none
  drives : List DriveInfo

/-- Per-drive placement state produced by `CStorageController.init`. -/
structure PlacedDrive where
  info : DriveInfo
  index : Nat
  controller_type : String
  bus : String

/-- The drive-placement loop of `CStorageController.init` (lines 400-414):
walk the drives with a running `drive_index` and `controller_index`;
the controller index is bumped for every drive whose index exceeds
`max_drive_per_controller - 1`; an `ahci` drive's bus unit is its full
drive index, otherwise 0. -/
def CStorageController.placeDrives (controller_type pfx : String)
    (maxPer : Int) : List DriveInfo → Nat → Nat → List PlacedDrive
  | [], _, _ => []
  | d :: rest, drive_index, controller_index =>
    let ci := if (drive_index : Int) > maxPer - 1 then controller_index + 1
              else controller_index
    let unit := if controller_type = "ahci" then drive_index else 0
    { info := d, index := drive_index, controller_type := controller_type
      bus := pfx ++ toString ci ++ "." ++ toString unit }
      :: CStorageController.placeDrives controller_type pfx maxPer rest
          (drive_index + 1) ci

/-- Bus-address prefix (lines 390-393 and 426-429). -/
def CStorageController.busPfx (controller_type : String) : String :=
  if controller_type = "ahci" then "sata" else "scsi"

/-- `CStorageController.init` (lines 385-417): the placed drive list. -/
def CStorageController.init (info : ControllerInfo) : List PlacedDrive :=
  CStorageController.placeDrives info.type
    (CStorageController.busPfx info.type) info.max_drive_per_controller
    info.drives 0 0

/-- The controller-fragment loop of `CStorageController.handle_params`
(lines 431-440).  `controller_option_list` is initialised once, outside
the loop, so iteration `k` appends `-device <type>` and `id=<pfx><k>`
(plus `use_jbod=` when set) to the fragments accumulated by the previous
iterations, then adds the comma-join of the whole accumulated list as one
option.  Returns the final `controller_option_list` and option list. -/
def CStorageController.controllerFold (ctype pfx : String)
    (jbod : Option String) (count : Nat) : List String × List String :=
  (List.range count).foldl
    (fun st k =>
      let colist := st.1 ++ ["-device " ++ ctype, "id=" ++ pfx ++ toString k]
        ++ (match jbod with
            | some j => ["use_jbod=" ++ j]
            | none => [])
      (colist, CElement.add_option st.2 (some (String.intercalate "," colist))))
    ([], [])

/-- `CStorageController.handle_params` (lines 419-446): controller
fragments first, then one fragment per drive (each drive's `get_option`
of its singleton option list is the fragment itself); `none` when a drive
raises.  `controller_quantities = ceil(drives / max_drive_per_controller)`
(line 423-425); for the positive drive counts and limits used this equals
`(n + m - 1) / m` on naturals. -/
def CStorageController.handle_params (home : String) (info : ControllerInfo) :
    Option (List String) :=
  let drive_quantities := info.drives.length
  let m := info.max_drive_per_controller.toNat
  let controller_quantities := (drive_quantities + m - 1) / m
  let pfx := CStorageController.busPfx info.type
  let opts :=
    (CStorageController.controllerFold info.type pfx info.use_jbod
      controller_quantities).2
  let placed := CStorageController.init info
  (placed.mapM (fun p =>
      CDrive.handle_parms (CDrive.init home p.info p.index p.controller_type)
        p.index p.controller_type (some p.bus))).map
    (fun frags => frags.foldl (fun l f => CElement.add_option l (some f)) opts)

/-! ## Task supervisor (`Task`, model.py lines 606-728)

A task's liveness oracle is its pid file `<workspace>/.<name>` crossed
with `/proc/<pid>`.  The relevant filesystem state is embedded as the
optional pid-file content plus a predicate telling which `/proc/<p>`
paths exist (`p` ranges over the formatted pid strings). -/

/-- Filesystem state seen by one task. -/
structure TaskFS where
  pidfile : Option String
  procs : String → Bool

/-- `Task.get_task_pid` (lines 652-659): read the first line of the pid
file and strip it; `None` when the file cannot be opened. -/
def Task.get_task_pid (fs : TaskFS) : Option String :=
  fs.pidfile.map (fun content =>
    pyStrip (String.mk (content.data.takeWhile (fun c => !(c = '\n')))))

/-- `Task.status` (lines 716-728).  Returns whether the task was reported
stopped, plus the filesystem state afterwards: reported stopped when the
pid file is absent, or when it is present but `/proc/<pid>` is not (in
which case the stale pid file is removed); otherwise reported running. -/
def Task.status (fs : TaskFS) : Bool × TaskFS :=
  match fs.pidfile with
  | none => (true, fs)
  | some _ =>
    match Task.get_task_pid fs with
    | some p =>
      if fs.procs p then (false, fs)
      else (true, { fs with pidfile := none })
    | none => (false, fs)

/-- Observable actions of `Task.run` (lines 661-695). -/
inductive RunEffect where
  | spawn (cmd : String)
  | writePid (pid : Nat)
  | removePidFile
  | printed (msg : String)
  | raisedRunFailed (cmd : String)
  deriving Repr, DecidableEq

/-- Result of `Utility.execute_command` (lines 43-70): either the child's
pid, or the `CommandRunFailed` raise when `/proc/<pid>` vanished within
the one-second liveness window. -/
inductive SpawnResult where
  | ok (pid : Nat)
  | failed
  deriving Repr, DecidableEq

/-- Configuration of one task as the supervisor sees it. -/
structure TaskCfg where
  run_mask : Bool
  debug : Bool
  task_name : String
  commandline : String

/-- External world consumed by one `Task.run` call: the first
`time.time()` reading, then one `(get_task_pid(), time.time())`
observation per iteration of the run-mask polling loop, the pid-file
state for the non-masked path, and the outcome of a spawn attempt. -/
structure RunWorld where
  t0 : Nat
  obs : List (Option String × Nat)
  fs : TaskFS
  spawn : SpawnResult

/-- The run-mask polling loop (lines 663-669): read the pid file; stop
with the pid once it appears, or with `none` once more than 5 seconds
have elapsed.  The observation list is the (finite window of the)
successive loop iterations. -/
def Task.pollPid (t0 : Nat) : List (Option String × Nat) → Option String
  | [] => none
  | (pid, now) :: rest =>
    match pid with
    | some p => some p
    | none => if t0 + 5 < now then none else Task.pollPid t0 rest

/-- `Task.run` (lines 661-695) as the list of its observable effects.
Under `run_mask` it only polls and prints (lines 662-675).  Under `debug`
it prints the command line.  Otherwise a live pid short-circuits, a stale
pid file is removed, and the command is spawned with the new pid
persisted.  (Python 2 compares the pid string to `0` by type name, so
`pid > 0` holds exactly when the pid file could be read.) -/
def Task.run (t : TaskCfg) (w : RunWorld) : List RunEffect :=
  if t.run_mask then
    match Task.pollPid w.t0 w.obs with
    | some p => [.printed ("[ " ++ pad6 p ++ " ] " ++ t.task_name ++ " run")]
    | none =>
      [.printed ("[ " ++ pad6 "None" ++ " ] " ++ t.task_name ++
        " fail to start")]
  else if t.debug then [.printed t.commandline]
  else
    let spawnPart : List RunEffect :=
      match w.spawn with
      | .ok pid => [.spawn t.commandline,
          .printed ("[ " ++ pad6 (toString pid) ++ " ] " ++ t.task_name ++
            " start to run"),
          .writePid pid]
      | .failed => [.spawn t.commandline, .raisedRunFailed t.commandline]
    match Task.get_task_pid w.fs with
    | some p =>
      if w.fs.procs p then
        [.printed ("[ " ++ pad6 p ++ " ] " ++ t.task_name ++
          " is already running")]
      else .removePidFile :: spawnPart
    | none => spawnPart

/-! ## Node orchestrator (`CNode`, model.py lines 1238-1500) -/

/-- The three task kinds a node instantiates. -/
inductive TaskKind where
  | socat
  | bmc
  | compute
  deriving Repr, DecidableEq

/-- Per-task data fixed by `CNode.init` (lines 1436-1454). -/
structure NodeTask where
  kind : TaskKind
  priority : Nat
  run_mask : Bool
  deriving Repr, DecidableEq

/-- The task list built by `CNode.init`: socat at priority 0, bmc at 1,
compute at 2; only the compute task has `set_run_mask(True)`
(line 1449). -/
def CNode.tasks_list : List NodeTask :=
  [{ kind := .socat, priority := 0, run_mask := false },
   { kind := .bmc, priority := 1, run_mask := false },
   { kind := .compute, priority := 2, run_mask := true }]

/-- Stable ascending insertion by priority
(`sort(key=lambda x: x.get_priority())`). -/
def CNode.insertAsc (t : NodeTask) : List NodeTask → List NodeTask
  | [] => [t]
  | u :: rest =>
    if t.priority < u.priority then t :: u :: rest
    else u :: CNode.insertAsc t rest

/-- Stable descending insertion by priority (`sort(..., reverse=True)`). -/
def CNode.insertDesc (t : NodeTask) : List NodeTask → List NodeTask
  | [] => [t]
  | u :: rest =>
    if t.priority > u.priority then t :: u :: rest
    else u :: CNode.insertDesc t rest

/-- `CNode.start` (lines 1484-1489): sort ascending by priority, then call
`run` on each task in order.  The returned list is the sequence of tasks
whose `run` is invoked, in invocation order. -/
def CNode.start (tasks : List NodeTask) : List NodeTask :=
  tasks.foldr CNode.insertAsc []

/-- `CNode.stop` (lines 1491-1496): sort descending by priority, then call
`terminate` on each task in order.  The returned list is the sequence of
tasks whose `terminate` is invoked, in invocation order. -/
def CNode.stop (tasks : List NodeTask) : List NodeTask :=
  tasks.foldr CNode.insertDesc []

/-! ## NUMA allocator (`NumaCtl`, model.py lines 1548-1580)

`self.__node_list` is the parsed `nodebind:` line and
`self.__numactl_table` maps a NUMA node id to its free CPU list.
`list.pop()` removes the *last* element, so the draining loops are
expressed over the reversed free lists. -/

/-- Allocator state after construction. -/
structure NumaCtl where
  node_list : List Nat
  table : Nat → List Nat

/-- Pop `n` elements off the end of a free list, walking its reverse:
returns the popped elements (in pop order) and the reversed remainder. -/
def NumaCtl.popRev : Nat → List Nat → List Nat × List Nat
  | 0, r => ([], r)
  | _ + 1, [] => ([], [])
  | n + 1, x :: rest =>
    let p := NumaCtl.popRev n rest
    (x :: p.1, p.2)

/-- `[self.__numactl_table[i].pop() for _ in range(0, num)]`
(line 1571): `num` pops from the end of the free list, which is only
evaluated under the guard `len(...) >= num`. -/
def NumaCtl.popN (n : Nat) (l : List Nat) : List Nat × List Nat :=
  let p := NumaCtl.popRev n l.reverse
  (p.1, p.2.reverse)

/-- The first loop of `get_cpu_list` (lines 1569-1571): the first node in
enumeration order whose free list holds at least `num` CPUs. -/
def NumaCtl.firstFit (num : Nat) (tbl : Nat → List Nat) :
    List Nat → Option Nat
  | [] => none
  | i :: rest =>
    if num ≤ (tbl i).length then some i else NumaCtl.firstFit num tbl rest

/-- The inner `while` of the draining loop (lines 1575-1578), walking the
reversed free list: pop and append until the accumulator reaches `num`
(checked after each append) or the list is exhausted.  Returns the
accumulator, the remaining (un-reversed) free list, and whether the
early `return` was taken. -/
def NumaCtl.drainRev (num : Nat) : List Nat → List Nat →
    List Nat × List Nat × Bool
  | [], acc => (acc, [], false)
  | x :: rest, acc =>
    let acc2 := acc ++ [x]
    if acc2.length = num then (acc2, rest.reverse, true)
    else NumaCtl.drainRev num rest acc2

/-- Drain one node's free list (pops come off the end of the list). -/
def NumaCtl.drainOne (num : Nat) (l acc : List Nat) :
    List Nat × List Nat × Bool :=
  NumaCtl.drainRev num l.reverse acc

/-- The second loop of `get_cpu_list` (lines 1573-1580): drain nodes in
enumeration order until the accumulator reaches `num` or every node is
empty.  Returns the accumulator and the updated table. -/
def NumaCtl.drainNodes (num : Nat) :
    List Nat → (Nat → List Nat) → List Nat → List Nat × (Nat → List Nat)
  | [], tbl, acc => (acc, tbl)
  | i :: rest, tbl, acc =>
    let r := NumaCtl.drainOne num (tbl i) acc
    let tbl2 := fun j => if j = i then r.2.1 else tbl j
    if r.2.2 then (r.1, tbl2)
    else NumaCtl.drainNodes num rest tbl2 r.1

/-- `NumaCtl.get_cpu_list` (lines 1568-1580): prefer the first node with
`num` free CPUs and pop them all from it; otherwise drain nodes in
enumeration order, returning up to `num` CPU ids. -/
def NumaCtl.get_cpu_list (s : NumaCtl) (num : Nat) : List Nat × NumaCtl :=
  match NumaCtl.firstFit num s.table s.node_list with
  | some i =>
    let p := NumaCtl.popN num (s.table i)
    (p.1, { s with table := fun j => if j = i then p.2 else s.table j })
  | none =>
    let r := NumaCtl.drainNodes num s.node_list s.table []
    (r.1, { s with table := r.2 })

/-- The multiset of free CPUs held by the allocator. -/
def NumaCtl.pool (s : NumaCtl) : List Nat :=
  s.node_list.flatMap s.table

/-! ## Compute task command line (`CCompute`, model.py lines 731-917)

`CCompute.init` (lines 831-861) appends its elements in the order CPU,
memory, backend storage, backend network, IPMI.  Each element's rendered
option string is abstracted as one string here; `get_commandline`
(lines 863-881) folds them with `" ".join([element_option, cmdline])`,
which *prepends*, and finally prepends the VMM binary and the task's own
option string. -/

/-- The element option strings in construction order (lines 831-861). -/
def CCompute.element_options (cpu memory storage networks ipmi : String) :
    List String :=
  [cpu, memory, storage, networks, ipmi]

/-- `CCompute.get_commandline` (lines 863-881), without the optional
`numactl` pinning: fold the element options into an initially empty
command line by prepending, then prepend the VMM binary and the task's
base options. -/
def CCompute.get_commandline (qemu_bin self_option : String)
    (element_options : List String) : String :=
  let cmdline := element_options.foldl
    (fun cmdline o => String.intercalate " " [o, cmdline]) ""
  String.intercalate " " [qemu_bin, self_option, cmdline]

/-! ## Helper lemmas -/

/-- `" ".join` agrees with the specification-side `joinedBySpaces`. -/
theorem intercalate_space_eq_joinedBySpaces (l : List String) :
    String.intercalate " " l = joinedBySpaces l := by
  cases l with
  | nil => rfl
  | cons x xs =>
    show String.intercalate.go x " " xs = joinedBySpaces (x :: xs)
    induction xs generalizing x with
    | nil => rfl
    | cons y ys ih =>
      show String.intercalate.go (x ++ " " ++ y) " " ys =
        joinedBySpaces (x :: y :: ys)
      rw [ih (x ++ " " ++ y)]
      cases ys with
      | nil => rfl
      | cons z zs => simp [joinedBySpaces, String.append_assoc]

/-- A `-cpu` fragment never coincides with a `-smp` fragment. -/
theorem cpu_fragment_ne_smp_fragment (a b : String) :
    "-cpu " ++ a ≠ "-smp " ++ b := by
  intro h
  have h2 := congrArg String.data h
  simp [String.data_append] at h2

/-- The `-smp` fragment with the formatted default socket count folded in. -/
theorem smp_fragment_norm (tq tc : String) :
    "-smp " ++ tq ++ ",sockets=" ++ toString (2 : Int) ++ ",cores=" ++ tc ++
        ",threads=1"
      = "-smp " ++ tq ++ ",sockets=2,cores=" ++ tc ++ ",threads=1" := by
  rw [show toString (2 : Int) = "2" from rfl]
  apply String.ext
  simp [String.data_append]

/-- Adding two distinct options to a fresh option list keeps both. -/
theorem add_option_pair (c s : String) (h : c ≠ s) :
    CElement.add_option (CElement.add_option [] (some c)) (some s) = [c, s] := by
  simp [CElement.add_option, h, Ne.symm h]

/-! ## Claims -/

/-- C4: for the option builder of every element, adding a fragment already
present leaves the list unchanged (and prints the duplicate warning);
rendering an empty list fails with an error; and rendering a non-empty
list returns exactly the added fragments joined by single spaces in
insertion order. -/
theorem claim_C4 (l : List String) (o : String) :
    (o ∈ l → CElement.add_option l (some o) = l ∧
      CElement.add_option_warns l (some o) = true)
    ∧ CElement.get_option [] = .error "No option in the list"
    ∧ (l ≠ [] → CElement.get_option l = .ok (joinedBySpaces l)) := by
  refine ⟨fun h => ?_, rfl, fun h => ?_⟩
  · simp [CElement.add_option, CElement.add_option_warns, h]
  · rw [CElement.get_option, if_neg (by simpa using h),
      intercalate_space_eq_joinedBySpaces]

/-- Witness for C4 at a concrete option list. -/
theorem claim_C4_witness :
    ("-m 1024" ∈ ["-m 1024", "-boot ncd"] ∧
      CElement.add_option ["-m 1024", "-boot ncd"] (some "-m 1024") =
        ["-m 1024", "-boot ncd"] ∧
      CElement.add_option_warns ["-m 1024", "-boot ncd"] (some "-m 1024") =
        true)
    ∧ CElement.get_option ["-m 1024", "-boot ncd"] =
        .ok (joinedBySpaces ["-m 1024", "-boot ncd"]) :=
  ⟨⟨by decide,
    (claim_C4 ["-m 1024", "-boot ncd"] "-m 1024").1 (by decide)⟩,
    (claim_C4 ["-m 1024", "-boot ncd"] "-m 1024").2.2 (by decide)⟩

/-- C5: for a CPU descriptor with `quantities = Q` (`Q` positive and even)
and no socket override, `handle_parms` pushes exactly the `-cpu` fragment
and then `-smp Q,sockets=2,cores=Q/2,threads=1`, with `Q / 2` the exact
integer quotient. -/
theorem claim_C5 (info : CPUInfo) (Q : Int) (hq : info.quantities = some Q)
    (hpos : 0 < Q) (hdiv : Q % 2 = 0) :
    CCPU.handle_parms (CCPU.init info none) =
      [(if info.features.getD "+vmx" ≠ "" then
          "-cpu " ++ info.type.getD "host" ++ "," ++ info.features.getD "+vmx"
        else "-cpu " ++ info.type.getD "host"),
       "-smp " ++ toString Q ++ ",sockets=2,cores=" ++ toString (Q / 2) ++
         ",threads=1"]
    ∧ Q / 2 * 2 = Q := by
  constructor
  · rw [CCPU.handle_parms, CCPU.init]
    simp only [hq, Option.getD_some, Option.getD_none]
    rw [smp_fragment_norm]
    split
    · refine add_option_pair _ _ ?_
      simp only [String.append_assoc]
      exact cpu_fragment_ne_smp_fragment _ _
    · refine add_option_pair _ _ ?_
      simp only [String.append_assoc]
      exact cpu_fragment_ne_smp_fragment _ _
  · exact Int.ediv_mul_cancel (Int.dvd_of_emod_eq_zero hdiv)

/-- Witness for C5 at `quantities = 8`. -/
theorem claim_C5_witness :
    ({ quantities := some 8 : CPUInfo }.quantities = some 8 ∧
      0 < (8 : Int) ∧ (8 : Int) % 2 = 0)
    ∧ CCPU.handle_parms (CCPU.init { quantities := some 8 } none) =
      [(if ({ quantities := some 8 : CPUInfo }.features.getD "+vmx") ≠ "" then
          "-cpu " ++ ({ quantities := some 8 : CPUInfo }.type.getD "host") ++
            "," ++ ({ quantities := some 8 : CPUInfo }.features.getD "+vmx")
        else "-cpu " ++ ({ quantities := some 8 : CPUInfo }.type.getD "host")),
       "-smp " ++ toString (8 : Int) ++ ",sockets=2,cores=" ++
         toString ((8 : Int) / 2) ++ ",threads=1"] :=
  ⟨⟨rfl, by decide, by decide⟩,
    (claim_C5 { quantities := some 8 } 8 rfl (by decide) (by decide)).1⟩

/-- C9: CPU `precheck` with the default socket count 2 fails with an
`ArgsNotCorrect` error exactly when the quantity is not positive or not
divisible by 2, and succeeds otherwise. -/
theorem claim_C9 (t f : String) (q : Int) :
    (CCPU.precheck { cpuType := t, features := f, quantities := q, socket := 2 }
        = .ok () ↔ (0 < q ∧ q % 2 = 0))
    ∧ ((q ≤ 0 ∨ q % 2 ≠ 0) →
      ∃ m, CCPU.precheck
          { cpuType := t, features := f, quantities := q, socket := 2 } =
        .error (InfrasimError.ArgsNotCorrect m)) := by
  rw [CCPU.precheck]
  dsimp only
  constructor
  · split
    · constructor
      · intro h
        exact absurd h (by simp)
      · intro h
        omega
    · split
      · constructor
        · intro h
          exact absurd h (by simp)
        · intro h
          omega
      · constructor
        · intro _
          omega
        · intro _
          rfl
  · intro h
    split
    · exact ⟨_, rfl⟩
    · split
      · exact ⟨_, rfl⟩
      · omega

/-- Witness for C9: quantity 6 passes, quantity 3 fails. -/
theorem claim_C9_witness :
    CCPU.precheck
        { cpuType := "host", features := "+vmx", quantities := 6, socket := 2 } =
      .ok ()
    ∧ ∃ m, CCPU.precheck
        { cpuType := "host", features := "+vmx", quantities := 3, socket := 2 } =
      .error (InfrasimError.ArgsNotCorrect m) :=
  ⟨(claim_C9 "host" "+vmx" 6).1.mpr (by decide),
    (claim_C9 "host" "+vmx" 3).2 (by decide)⟩

/-- C8: the node start operation invokes `run` on its tasks in strictly
ascending priority order — serial bridge (0), then BMC (1), then compute
(2) — and the stop operation invokes `terminate` in strictly descending
priority order. -/
theorem claim_C8 :
    CNode.tasks_list.map NodeTask.priority = [0, 1, 2]
    ∧ (CNode.start CNode.tasks_list).map NodeTask.kind =
        [TaskKind.socat, TaskKind.bmc, TaskKind.compute]
    ∧ List.Pairwise (· < ·)
        ((CNode.start CNode.tasks_list).map NodeTask.priority)
    ∧ (CNode.stop CNode.tasks_list).map NodeTask.kind =
        [TaskKind.compute, TaskKind.bmc, TaskKind.socat]
    ∧ List.Pairwise (· > ·)
        ((CNode.stop CNode.tasks_list).map NodeTask.priority) := by
  refine ⟨rfl, rfl, ?_, rfl, ?_⟩ <;> decide

/-- C10: the compute element fragments appear in the final command line in
reverse construction order — IPMI, networks, storage, memory, CPU — after
the VMM binary and the task's own fragments; the construction order is
not the emission order. -/
theorem claim_C10 (b s cpu memory storage networks ipmi : String) :
    CCompute.get_commandline b s
        (CCompute.element_options cpu memory storage networks ipmi) =
      b ++ " " ++ s ++ " " ++ ipmi ++ " " ++ networks ++ " " ++ storage ++
        " " ++ memory ++ " " ++ cpu ++ " "
    ∧ CCompute.get_commandline "qemu-system-x86_64" "-vnc :1"
        (CCompute.element_options "C" "M" "S" "N" "I") ≠
      "qemu-system-x86_64" ++ " " ++ "-vnc :1" ++ " " ++ "C" ++ " " ++ "M" ++
        " " ++ "S" ++ " " ++ "N" ++ " " ++ "I" ++ " " := by
  constructor
  · show String.intercalate " "
      [b, s, String.intercalate " "
        [ipmi, String.intercalate " "
          [networks, String.intercalate " "
            [storage, String.intercalate " "
              [memory, String.intercalate " " [cpu, ""]]]]]] = _
    apply String.ext
    simp [String.data_append, String.intercalate, String.intercalate.go]
  · decide

/-- C2: `Task.status` reports "stopped" exactly when the pid file does not
exist or `/proc/<pid>` does not exist for the pid read from it; when the
pid file exists but `/proc/<pid>` does not, the call removes the pid
file, and a running report leaves the filesystem untouched. -/
theorem claim_C2 (fs : TaskFS) :
    ((Task.status fs).1 = true ↔
      (Task.get_task_pid fs = none ∨
        ∃ p, Task.get_task_pid fs = some p ∧ fs.procs p = false))
    ∧ (Task.get_task_pid fs = none ↔ fs.pidfile = none)
    ∧ (∀ p, Task.get_task_pid fs = some p → fs.procs p = false →
        (Task.status fs).2.pidfile = none)
    ∧ ((Task.status fs).1 = false → (Task.status fs).2 = fs) := by
  obtain ⟨pf, procs⟩ := fs
  cases pf with
  | none => simp [Task.status, Task.get_task_pid]
  | some content =>
    simp only [Task.status, Task.get_task_pid, Option.map_some]
    by_cases hp : procs (pyStrip (String.mk
        (content.data.takeWhile (fun c => !(c = '\n'))))) <;>
      simp [hp]

/-- Witness for C2: a stale pid file (pid 42, no such `/proc` entry) is
reported stopped and removed. -/
theorem claim_C2_witness :
    Task.get_task_pid { pidfile := some "42\n", procs := fun _ => false } =
      some "42"
    ∧ (Task.status { pidfile := some "42\n", procs := fun _ => false
        }).2.pidfile = none :=
  ⟨by decide,
    (claim_C2 { pidfile := some "42\n", procs := fun _ => false }).2.2.1 "42"
      (by decide) rfl⟩

/-- C3: when the run-mask flag is set, `Task.run` spawns nothing and
touches no pid file — its only effects are reports — and the polling loop
gives up once more than 5 seconds have elapsed without a pid file
appearing; the node orchestrator constructs exactly its compute task with
the run mask set. -/
theorem claim_C3 (t : TaskCfg) (w : RunWorld) (h : t.run_mask = true) :
    (∀ e ∈ Task.run t w, ∃ msg, e = RunEffect.printed msg)
    ∧ (∀ (t0 : Nat) (obs : List (Option String × Nat)),
        (∀ o ∈ obs, o.1 = none) → (∃ o ∈ obs, t0 + 5 < o.2) →
        Task.pollPid t0 obs = none)
    ∧ (∀ nt ∈ CNode.tasks_list,
        nt.run_mask = true ↔ nt.kind = TaskKind.compute) := by
  refine ⟨?_, ?_, by decide⟩
  · intro e he
    rw [Task.run, if_pos (by simp [h])] at he
    cases hpoll : Task.pollPid w.t0 w.obs <;> rw [hpoll] at he <;>
      simp at he <;> exact ⟨_, he⟩
  · intro t0 obs
    induction obs with
    | nil => simp
    | cons o rest ih =>
      intro hnone hlate
      obtain ⟨p, now⟩ := o
      have hp : p = none := hnone (p, now) (by simp)
      subst hp
      rw [Task.pollPid]
      by_cases hnow : t0 + 5 < now
      · simp [hnow]
      · simp only [if_neg hnow]
        refine ih (fun o ho => hnone o (by simp [ho])) ?_
        obtain ⟨o, ho, hot⟩ := hlate
        rcases List.mem_cons.mp ho with rfl | ho2
        · exact absurd hot hnow
        · exact ⟨o, ho2, hot⟩

/-- Witness for C3: a masked task over a world whose pid file never
appears within the window only prints. -/
theorem claim_C3_witness :
    ({ run_mask := true, debug := false, task_name := "node-0-node",
        commandline := "qemu-system-x86_64" : TaskCfg }.run_mask = true)
    ∧ (∀ e ∈ Task.run
        { run_mask := true, debug := false, task_name := "node-0-node",
          commandline := "qemu-system-x86_64" }
        { t0 := 0, obs := [(none, 2), (none, 6)],
          fs := { pidfile := none, procs := fun _ => false },
          spawn := SpawnResult.ok 7 },
        ∃ msg, e = RunEffect.printed msg) :=
  ⟨rfl,
    (claim_C3
      { run_mask := true, debug := false, task_name := "node-0-node",
        commandline := "qemu-system-x86_64" }
      { t0 := 0, obs := [(none, 2), (none, 6)],
        fs := { pidfile := none, procs := fun _ => false },
        spawn := SpawnResult.ok 7 } rfl).1⟩

/-- An AHCI controller descriptor with two drives and
`max_drive_per_controller = 1` (so two controllers are needed). -/
def ahciTwoOverOne : ControllerInfo :=
  { type := "ahci", max_drive_per_controller := 1,
    drives := [{ file := some "/dev/sda" }, { file := some "/dev/sdb" }] }

/-- C1 (evaluation at the failing input): with two AHCI drives over a
one-drive-per-controller limit, the second controller fragment is the
garbled `-device ahci,id=sata0,-device ahci,id=sata1` — the accumulator
is never reset, so it is not of the form `-device ahci,id=sata1` and
contains two `-device`/`id=` pairs — and the second drive's bus address
is `sata1.1` (controller index `max(0, k - M + 1)` and unit `k`), not the
`sata1.0` the claim's `sata<k div M>.<k mod M>` formula requires. -/
theorem claim_C1_eval :
    CStorageController.handle_params "/root" ahciTwoOverOne = some
      ["-device ahci,id=sata0",
       "-device ahci,id=sata0,-device ahci,id=sata1",
       "-drive file=/dev/sda,format=raw,if=none,id=drive0,cache=writeback" ++
         " -device ide-hd,bus=sata0.0,drive=drive0",
       "-drive file=/dev/sdb,format=raw,if=none,id=drive1,cache=writeback" ++
         " -device ide-hd,bus=sata1.1,drive=drive1"]
    ∧ (CStorageController.init ahciTwoOverOne).map PlacedDrive.bus =
        ["sata0.0", "sata1.1"]
    ∧ "-device ahci,id=sata0,-device ahci,id=sata1" ≠ "-device ahci,id=sata1"
    ∧ containsSub "-device ahci,id=sata0,-device ahci,id=sata1" "id=sata0"
        = true
    ∧ "sata1.1" ≠ "sata1.0" := by
  refine ⟨by decide, by decide, by decide, by decide, by decide⟩

/-- Membership in a truthiness-guarded piece forces the key and value. -/
theorem mem_optPiece {x k : String} {o : Option String}
    (h : x ∈ optPiece k o) : ∃ v, o = some v ∧ ¬(v = "") ∧ x = k ++ v := by
  cases o with
  | none => simp [optPiece] at h
  | some s =>
    rw [optPiece] at h
    by_cases hs : s = ""
    · simp [hs] at h
    · simp [hs] at h
      exact ⟨s, rfl, hs, h⟩

/-- Membership in the rotation piece forces the key and value. -/
theorem mem_rotPiece {x : String} {o : Option Nat}
    (h : x ∈ rotPiece o) : ∃ r, o = some r ∧ x = "rotation=" ++ toString r := by
  cases o with
  | none => simp [rotPiece] at h
  | some r =>
    simp [rotPiece] at h
    exact ⟨r, rfl, h⟩

/-- A drive descriptor with a `model` key on a non-AHCI controller. -/
def lsiModelDrive : DriveInfo :=
  { model := some "ST1000NX0423", file := some "/dev/sdc" }

/-- C6 counterexample: a drive with a `model` key behind an `lsi`
controller still renders a `model=` field, refuting "a model= field only
when the drive's controller type is ahci". -/
theorem claim_C6_counterexample :
    CDrive.handle_parms (CDrive.init "/root" lsiModelDrive 0 "lsi") 0 "lsi"
        (some "scsi0.0") =
      some ("-drive file=/dev/sdc,format=raw,if=none,id=drive0," ++
        "cache=writeback -device scsi-hd,model=ST1000NX0423," ++
        "bus=scsi0.0,drive=drive0")
    ∧ ("model=ST1000NX0423") ∈
        CDrive.deviceFields (CDrive.init "/root" lsiModelDrive 0 "lsi") 0
          "lsi" (some "scsi0.0")
    ∧ containsSub
        ("-drive file=/dev/sdc,format=raw,if=none,id=drive0," ++
          "cache=writeback -device scsi-hd,model=ST1000NX0423," ++
          "bus=scsi0.0,drive=drive0") ",model=" = true
    ∧ ¬("lsi" = "ahci") := by
  refine ⟨by decide, by decide, by decide, by decide⟩

/-- C6 amended: the rendered device fields carry a `vendor=` field only
when the controller type is `megasas` or `megasas-gen2` (and only with
the descriptor's own value), while a `model=` field is emitted whenever
the descriptor carries a (truthy) `model` value, for every controller
type — and never when the descriptor has no `model` key. -/
theorem claim_C6_amended (home : String) (d : DriveInfo) (i : Nat)
    (ct : String) (bus : Option String) :
    (∀ v, ("vendor=" ++ v) ∈
        CDrive.deviceFields (CDrive.init home d i ct) i ct bus →
      (ct = "megasas" ∨ ct = "megasas-gen2") ∧ d.vendor = some v)
    ∧ (CDrive.init home d i ct).model = d.model
    ∧ (∀ m, d.model = some m → ¬(m = "") →
        ("model=" ++ m) ∈
          CDrive.deviceFields (CDrive.init home d i ct) i ct bus)
    ∧ (d.model = none → ∀ m, ("model=" ++ m) ∉
        CDrive.deviceFields (CDrive.init home d i ct) i ct bus) := by
  have hmodel : (CDrive.init home d i ct).model = d.model := by
    rw [CDrive.init]
    cases d.model <;> cases d.file <;> simp
  have hvendor : (CDrive.init home d i ct).vendor =
      (if ct = "megasas" || ct = "megasas-gen2" then d.vendor else none) := by
    rw [CDrive.init]
  refine ⟨?_, hmodel, ?_, ?_⟩
  · intro v hv
    rw [CDrive.deviceFields] at hv
    simp only [List.append_assoc, List.mem_append, List.mem_singleton] at hv
    rcases hv with hv | hv | hv | hv | hv | hv | hv | hv | hv | hv
    · revert hv
      split
      · intro hv
        have := congrArg String.data hv
        simp [String.data_append] at this
      · split
        · intro hv
          have := congrArg String.data hv
          simp [String.data_append] at this
        · intro hv
          have := congrArg String.data hv
          simp [String.data_append] at this
    · obtain ⟨w, hw, -, heq⟩ := mem_optPiece hv
      have hvw : v = w := by
        rw [String.ext_iff] at heq
        simp [String.data_append] at heq
        exact String.ext heq
      rw [hvendor] at hw
      revert hw
      split
      · intro hw
        rw [hvw]
        constructor
        · rename_i hor
          simpa using hor
        · exact hw
      · intro hw
        simp at hw
    · obtain ⟨w, hw, -, heq⟩ := mem_optPiece hv
      have := congrArg String.data heq
      simp [String.data_append] at this
    · obtain ⟨w, hw, -, heq⟩ := mem_optPiece hv
      have := congrArg String.data heq
      simp [String.data_append] at this
    · obtain ⟨w, hw, -, heq⟩ := mem_optPiece hv
      have := congrArg String.data heq
      simp [String.data_append] at this
    · obtain ⟨w, hw, -, heq⟩ := mem_optPiece hv
      have := congrArg String.data heq
      simp [String.data_append] at this
    · obtain ⟨w, hw, -, heq⟩ := mem_optPiece hv
      have := congrArg String.data heq
      simp [String.data_append] at this
    · obtain ⟨r, hr, heq⟩ := mem_rotPiece hv
      have := congrArg String.data heq
      simp [String.data_append] at this
    · obtain ⟨w, hw, -, heq⟩ := mem_optPiece hv
      have := congrArg String.data heq
      simp [String.data_append] at this
    · have := congrArg String.data hv
      simp [String.data_append] at this
  · intro m hm hm0
    rw [CDrive.deviceFields]
    simp only [List.append_assoc, List.mem_append]
    refine Or.inr (Or.inr (Or.inl ?_))
    rw [hmodel, hm, optPiece]
    simp [hm0]
  · intro hnone m hm
    rw [CDrive.deviceFields] at hm
    simp only [List.append_assoc, List.mem_append, List.mem_singleton] at hm
    rcases hm with hm | hm | hm | hm | hm | hm | hm | hm | hm | hm
    · revert hm
      split
      · intro hm
        have := congrArg String.data hm
        simp [String.data_append] at this
      · split
        · intro hm
          have := congrArg String.data hm
          simp [String.data_append] at this
        · intro hm
          have := congrArg String.data hm
          simp [String.data_append] at this
    · obtain ⟨w, hw, -, heq⟩ := mem_optPiece hm
      have := congrArg String.data heq
      simp [String.data_append] at this
    · obtain ⟨w, hw, -, heq⟩ := mem_optPiece hm
      rw [hmodel, hnone] at hw
      exact Option.noConfusion hw
    · obtain ⟨w, hw, -, heq⟩ := mem_optPiece hm
      have := congrArg String.data heq
      simp [String.data_append] at this
    · obtain ⟨w, hw, -, heq⟩ := mem_optPiece hm
      have := congrArg String.data heq
      simp [String.data_append] at this
    · obtain ⟨w, hw, -, heq⟩ := mem_optPiece hm
      have := congrArg String.data heq
      simp [String.data_append] at this
    · obtain ⟨w, hw, -, heq⟩ := mem_optPiece hm
      have := congrArg String.data heq
      simp [String.data_append] at this
    · obtain ⟨r, hr, heq⟩ := mem_rotPiece hm
      have := congrArg String.data heq
      simp [String.data_append] at this
    · obtain ⟨w, hw, -, heq⟩ := mem_optPiece hm
      have := congrArg String.data heq
      simp [String.data_append] at this
    · have := congrArg String.data hm
      simp [String.data_append] at this

/-- Witness for C6 amended: a `megasas` drive with both keys renders both
fields; the `vendor=` membership feeds the theorem's first conjunct. -/
theorem claim_C6_amended_witness :
    ({ vendor := some "EMC", model := some "X99", file := some "/dev/sdd"
        : DriveInfo }.model = some "X99" ∧ ¬("X99" = ""))
    ∧ ("model=" ++ "X99") ∈
        CDrive.deviceFields
          (CDrive.init "/root"
            { vendor := some "EMC", model := some "X99",
              file := some "/dev/sdd" } 0 "megasas") 0 "megasas"
          (some "scsi0.0") :=
  ⟨⟨rfl, by decide⟩,
    (claim_C6_amended "/root"
      { vendor := some "EMC", model := some "X99", file := some "/dev/sdd" }
      0 "megasas" (some "scsi0.0")).2.2.1 "X99" rfl (by decide)⟩

/-- Popping `n` elements off the reversed free list takes its first `n`. -/
theorem popRev_eq (n : Nat) (r : List Nat) :
    NumaCtl.popRev n r = (r.take n, r.drop n) := by
  induction n generalizing r with
  | zero => simp [NumaCtl.popRev]
  | succ n ih =>
    cases r with
    | nil => simp [NumaCtl.popRev]
    | cons x rest => simp [NumaCtl.popRev, ih]

/-- Closed form of the inner draining `while` over a reversed free list:
with fewer than `num` CPUs accumulated, it either completes the quota
from this node (leaving the rest) or drains the node entirely. -/
theorem drainRev_eq (num : Nat) (r acc : List Nat) (h : acc.length < num) :
    NumaCtl.drainRev num r acc =
      if num - acc.length ≤ r.length then
        (acc ++ r.take (num - acc.length),
          (r.drop (num - acc.length)).reverse, true)
      else (acc ++ r, [], false) := by
  induction r generalizing acc with
  | nil =>
    rw [NumaCtl.drainRev, if_neg (by simp; omega)]
    simp
  | cons x rest ih =>
    rw [NumaCtl.drainRev]
    by_cases hx : (acc ++ [x]).length = num
    · rw [if_pos hx]
      have hk : num - acc.length = 1 := by
        simp at hx
        omega
      rw [if_pos (by simp [hk])]
      simp [hk]
    · rw [if_neg hx]
      have h2 : (acc ++ [x]).length < num := by
        simp at hx ⊢
        omega
      rw [ih _ h2]
      have hk : num - acc.length = (num - (acc ++ [x]).length) + 1 := by
        simp
        omega
      by_cases hc : num - (acc ++ [x]).length ≤ rest.length
      · rw [if_pos hc, if_pos (by simp at hc ⊢; omega)]
        rw [hk]
        simp [List.append_assoc]
      · rw [if_neg hc, if_neg (by simp at hc ⊢; omega)]
        simp [List.append_assoc]

/-- Nodes outside the drained list keep their free CPUs. -/
theorem drainNodes_untouched (num : Nat) (nodes : List Nat)
    (tbl : Nat → List Nat) (acc : List Nat) (j : Nat) (hj : j ∉ nodes) :
    (NumaCtl.drainNodes num nodes tbl acc).2 j = tbl j := by
  induction nodes generalizing tbl acc with
  | nil => rfl
  | cons i rest ih =>
    have hji : ¬(j = i) := fun h => hj (h ▸ List.mem_cons_self i rest)
    have hjr : j ∉ rest := fun h => hj (List.mem_cons_of_mem i h)
    rw [NumaCtl.drainNodes]
    split
    · simp [hji]
    · rw [ih _ _ hjr]
      simp [hji]

/-- Closed form of the draining pass: the returned CPUs are the
accumulator followed by the reversed free lists of the nodes in
enumeration order, truncated at `num`. -/
theorem drainNodes_fst (num : Nat) (nodes : List Nat) (tbl : Nat → List Nat)
    (acc : List Nat) (hnd : nodes.Nodup) (h : acc.length < num) :
    (NumaCtl.drainNodes num nodes tbl acc).1 =
      (acc ++ nodes.flatMap (fun i => (tbl i).reverse)).take num := by
  induction nodes generalizing tbl acc with
  | nil =>
    rw [NumaCtl.drainNodes]
    simp
    omega
  | cons i rest ih =>
    rw [NumaCtl.drainNodes, NumaCtl.drainOne, drainRev_eq num _ _ h]
    by_cases hc : num - acc.length ≤ (tbl i).reverse.length
    · rw [if_pos hc]
      simp only [List.flatMap_cons]
      rw [show num = acc.length + (num - acc.length) by omega,
        List.take_append, Nat.add_sub_cancel_left,
        List.take_append_of_le_length hc]
      simp
    · rw [if_neg hc]
      simp only [Bool.false_eq_true, if_false]
      have hnd2 : rest.Nodup := hnd.of_cons
      have hi : i ∉ rest := (List.nodup_cons.mp hnd).1
      have hlen : (acc ++ (tbl i).reverse).length < num := by
        simp at hc ⊢
        omega
      rw [ih _ _ hnd2 hlen]
      have hcongr : rest.flatMap
            (fun j => ((if j = i then ([] : List Nat) else tbl j)).reverse) =
          rest.flatMap (fun j => (tbl j).reverse) := by
        refine List.flatMap_congr (fun a ha => ?_)
        have hne : ¬(a = i) := fun he => hi (he ▸ ha)
        simp [hne]
      rw [hcongr, List.flatMap_cons, List.append_assoc]

/-- Conservation of the draining pass: the CPUs returned plus the CPUs
still pooled over the drained nodes are exactly the accumulator plus the
CPUs pooled before — nothing is lost or invented, taken CPUs are
consumed. -/
theorem drainNodes_conserv (num : Nat) (nodes : List Nat)
    (tbl : Nat → List Nat) (acc : List Nat) (hnd : nodes.Nodup)
    (h : acc.length < num) :
    ((NumaCtl.drainNodes num nodes tbl acc).1 : Multiset Nat) +
        ↑(nodes.flatMap (NumaCtl.drainNodes num nodes tbl acc).2) =
      ↑acc + ↑(nodes.flatMap tbl) := by
  induction nodes generalizing tbl acc with
  | nil => simp [NumaCtl.drainNodes]
  | cons i rest ih =>
    have hnd2 : rest.Nodup := hnd.of_cons
    have hi : i ∉ rest := (List.nodup_cons.mp hnd).1
    rw [NumaCtl.drainNodes, NumaCtl.drainOne, drainRev_eq num _ _ h]
    by_cases hc : num - acc.length ≤ (tbl i).reverse.length
    · rw [if_pos hc]
      simp only [if_pos trivial]
      have hcongr : rest.flatMap (fun j =>
            if j = i then
              (List.drop (num - acc.length) (tbl i).reverse).reverse
            else tbl j) =
          rest.flatMap tbl := by
        refine List.flatMap_congr (fun a ha => ?_)
        have hne : ¬(a = i) := fun he => hi (he ▸ ha)
        simp [hne]
      simp only [List.flatMap_cons, if_pos rfl, hcongr]
      have hsplit : ((List.take (num - acc.length) (tbl i).reverse :
            List Nat) : Multiset Nat) +
          ↑((List.drop (num - acc.length) (tbl i).reverse).reverse) =
          ↑(tbl i) := by
        rw [Multiset.coe_reverse]
        rw [show ((List.take (num - acc.length) (tbl i).reverse :
            List Nat) : Multiset Nat) +
            ↑(List.drop (num - acc.length) (tbl i).reverse) =
          ↑(List.take (num - acc.length) (tbl i).reverse ++
            List.drop (num - acc.length) (tbl i).reverse) from rfl]
        rw [List.take_append_drop, Multiset.coe_reverse]
      calc ((acc ++ List.take (num - acc.length) (tbl i).reverse :
            List Nat) : Multiset Nat) +
          ↑((List.drop (num - acc.length) (tbl i).reverse).reverse ++
            rest.flatMap tbl)
          = ↑acc + (↑(List.take (num - acc.length) (tbl i).reverse) +
              ↑((List.drop (num - acc.length) (tbl i).reverse).reverse)) +
              ↑(rest.flatMap tbl) := by
            simp only [Multiset.coe_add]
            ac_rfl
        _ = ↑acc + ↑(tbl i) + ↑(rest.flatMap tbl) := by rw [hsplit]
        _ = ↑acc + ↑(tbl i ++ rest.flatMap tbl) := by
            simp only [Multiset.coe_add]
            ac_rfl
    · rw [if_neg hc]
      simp only [Bool.false_eq_true, if_false]
      have hlen : (acc ++ (tbl i).reverse).length < num := by
        simp at hc ⊢
        omega
      have htouch : (NumaCtl.drainNodes num rest
            (fun j => if j = i then [] else tbl j)
            (acc ++ (tbl i).reverse)).2 i = [] := by
        rw [drainNodes_untouched num rest _ _ i hi]
        simp
      have hcongr : rest.flatMap (fun j => if j = i then [] else tbl j) =
          rest.flatMap tbl := by
        refine List.flatMap_congr (fun a ha => ?_)
        have hne : ¬(a = i) := fun he => hi (he ▸ ha)
        simp [hne]
      have hih := ih (fun j => if j = i then [] else tbl j)
        (acc ++ (tbl i).reverse) hnd2 hlen
      rw [hcongr] at hih
      simp only [List.flatMap_cons, htouch, List.nil_append]
      rw [hih]
      rw [Multiset.coe_add, Multiset.coe_add, Multiset.coe_eq_coe,
        ← List.append_assoc]
      exact ((List.reverse_perm (tbl i)).append_left acc).append_right _

/-- A hit in the first loop of `get_cpu_list` names a listed node with
enough free CPUs. -/
theorem firstFit_some {num : Nat} {tbl : Nat → List Nat} {nodes : List Nat}
    {i : Nat} (h : NumaCtl.firstFit num tbl nodes = some i) :
    i ∈ nodes ∧ num ≤ (tbl i).length := by
  induction nodes with
  | nil => exact absurd h (by simp [NumaCtl.firstFit])
  | cons j rest ih =>
    rw [NumaCtl.firstFit] at h
    split at h
    · cases h
      exact ⟨List.mem_cons_self _ _, by assumption⟩
    · obtain ⟨h1, h2⟩ := ih h
      exact ⟨List.mem_cons_of_mem _ h1, h2⟩

/-- A miss in the first loop means every node is short of `num` CPUs. -/
theorem firstFit_none {num : Nat} {tbl : Nat → List Nat} {nodes : List Nat}
    (h : NumaCtl.firstFit num tbl nodes = none) :
    ∀ i ∈ nodes, (tbl i).length < num := by
  induction nodes with
  | nil => simp
  | cons j rest ih =>
    rw [NumaCtl.firstFit] at h
    split at h
    · exact absurd h (by simp)
    · intro i hi
      rcases List.mem_cons.mp hi with rfl | hi2
      · omega
      · exact ih h i hi2

/-- C7: `get_cpu_list` prefers the first NUMA node (in enumeration order)
holding at least `num` free CPUs, returning exactly `num` CPU ids from
that single node and leaving other nodes untouched; otherwise it drains
nodes in enumeration order, returning up to `num` ids; and in either case
the returned CPUs are consumed — returned plus remaining pool is a
permutation of the old pool, so (for a duplicate-free pool) no returned
CPU id is still available. -/
theorem claim_C7 (s : NumaCtl) (num : Nat) (hnd : s.node_list.Nodup) :
    (∀ i, NumaCtl.firstFit num s.table s.node_list = some i →
      i ∈ s.node_list ∧ num ≤ (s.table i).length ∧
      (NumaCtl.get_cpu_list s num).1 = (s.table i).reverse.take num ∧
      (NumaCtl.get_cpu_list s num).1.length = num ∧
      (∀ c ∈ (NumaCtl.get_cpu_list s num).1, c ∈ s.table i) ∧
      (NumaCtl.get_cpu_list s num).2.table i =
        ((s.table i).reverse.drop num).reverse ∧
      (∀ j, ¬(j = i) → (NumaCtl.get_cpu_list s num).2.table j = s.table j))
    ∧ (NumaCtl.firstFit num s.table s.node_list = none →
      (∀ i ∈ s.node_list, (s.table i).length < num) ∧
      (NumaCtl.get_cpu_list s num).1 =
        (s.node_list.flatMap (fun i => (s.table i).reverse)).take num)
    ∧ List.Perm
        ((NumaCtl.get_cpu_list s num).1 ++ (NumaCtl.get_cpu_list s num).2.pool)
        s.pool
    ∧ (s.pool.Nodup → ∀ c ∈ (NumaCtl.get_cpu_list s num).1,
        c ∉ (NumaCtl.get_cpu_list s num).2.pool) := by
  have hperm : List.Perm
      ((NumaCtl.get_cpu_list s num).1 ++ (NumaCtl.get_cpu_list s num).2.pool)
      s.pool := by
    cases hfit : NumaCtl.firstFit num s.table s.node_list with
    | some i =>
      obtain ⟨hmem, hlen⟩ := firstFit_some hfit
      have hget : NumaCtl.get_cpu_list s num =
          ((s.table i).reverse.take num,
            { s with table := fun j =>
                if j = i then ((s.table i).reverse.drop num).reverse
                else s.table j }) := by
        rw [NumaCtl.get_cpu_list, hfit]
        dsimp only
        rw [NumaCtl.popN, popRev_eq]
      obtain ⟨l1, l2, hsp⟩ := List.append_of_mem hmem
      rw [hsp] at hnd
      have hil1 : i ∉ l1 := fun h =>
        (List.nodup_append.mp hnd).2.2 h (List.mem_cons_self i l2)
      have hil2 : i ∉ l2 :=
        (List.nodup_cons.mp (List.nodup_append.mp hnd).2.1).1
      rw [hget, NumaCtl.pool, NumaCtl.pool]
      dsimp only
      rw [hsp]
      simp only [List.flatMap_append, List.flatMap_cons]
      have hc1 : l1.flatMap (fun j =>
          if j = i then ((s.table i).reverse.drop num).reverse
          else s.table j) = l1.flatMap s.table := by
        refine List.flatMap_congr (fun a ha => ?_)
        have hne : ¬(a = i) := fun he => hil1 (he ▸ ha)
        simp [hne]
      have hc2 : l2.flatMap (fun j =>
          if j = i then ((s.table i).reverse.drop num).reverse
          else s.table j) = l2.flatMap s.table := by
        refine List.flatMap_congr (fun a ha => ?_)
        have hne : ¬(a = i) := fun he => hil2 (he ▸ ha)
        simp [hne]
      rw [hc1, hc2]
      simp only [if_true]
      rw [← Multiset.coe_eq_coe]
      have hsplit : ((List.take num (s.table i).reverse : List Nat) :
            Multiset Nat) + ↑((List.drop num (s.table i).reverse).reverse) =
          ↑(s.table i) := by
        rw [Multiset.coe_reverse, Multiset.coe_add, List.take_append_drop,
          Multiset.coe_reverse]
      calc ((List.take num (s.table i).reverse ++
            (l1.flatMap s.table ++
              (((s.table i).reverse.drop num).reverse ++
                l2.flatMap s.table)) : List Nat) : Multiset Nat)
          = ↑(List.take num (s.table i).reverse) +
              ↑((List.drop num (s.table i).reverse).reverse) +
              ↑(l1.flatMap s.table) + ↑(l2.flatMap s.table) := by
            rw [← Multiset.coe_add, ← Multiset.coe_add, ← Multiset.coe_add]
            ac_rfl
        _ = ↑(s.table i) + ↑(l1.flatMap s.table) + ↑(l2.flatMap s.table) := by
            rw [hsplit]
        _ = ((l1.flatMap s.table ++ (s.table i ++ l2.flatMap s.table) :
              List Nat) : Multiset Nat) := by
            rw [← Multiset.coe_add, ← Multiset.coe_add]
            ac_rfl
    | none =>
      cases hnl : s.node_list with
      | nil =>
        rw [NumaCtl.get_cpu_list, hfit, NumaCtl.pool, NumaCtl.pool]
        simp [hnl, NumaCtl.drainNodes]
      | cons j rest =>
        have hjmem : j ∈ s.node_list := by
          rw [hnl]
          exact List.mem_cons_self j rest
        have hnum : 0 < num := by
          have hlt := firstFit_none hfit j hjmem
          omega
        have hcon := drainNodes_conserv num s.node_list s.table [] hnd
          (by simpa using hnum)
        rw [NumaCtl.get_cpu_list, hfit]
        dsimp only
        rw [NumaCtl.pool, NumaCtl.pool]
        dsimp only
        rw [← Multiset.coe_eq_coe, ← Multiset.coe_add]
        simpa using hcon
  refine ⟨?_, ?_, hperm, ?_⟩
  · intro i hfit
    obtain ⟨hmem, hlen⟩ := firstFit_some hfit
    have hget : NumaCtl.get_cpu_list s num =
        ((s.table i).reverse.take num,
          { s with table := fun j =>
              if j = i then ((s.table i).reverse.drop num).reverse
              else s.table j }) := by
      rw [NumaCtl.get_cpu_list, hfit]
      dsimp only
      rw [NumaCtl.popN, popRev_eq]
    refine ⟨hmem, hlen, by rw [hget], ?_, ?_, ?_, ?_⟩
    · rw [hget]
      simp only [List.length_take, List.length_reverse]
      omega
    · intro c hc
      rw [hget] at hc
      exact List.mem_reverse.mp (List.mem_of_mem_take hc)
    · rw [hget]
      simp
    · intro j hj
      rw [hget]
      simp [hj]
  · intro hfit
    refine ⟨firstFit_none hfit, ?_⟩
    cases hnl : s.node_list with
    | nil =>
      rw [NumaCtl.get_cpu_list, hfit]
      simp [hnl, NumaCtl.drainNodes]
    | cons j rest =>
      have hjmem : j ∈ s.node_list := by
        rw [hnl]
        exact List.mem_cons_self j rest
      have hnum : 0 < num := by
        have hlt := firstFit_none hfit j hjmem
        omega
      rw [NumaCtl.get_cpu_list, hfit]
      dsimp only
      rw [drainNodes_fst num s.node_list s.table [] hnd (by simpa using hnum),
        hnl]
      simp
  · intro hpool c hc hc2
    exact List.disjoint_of_nodup_append (hperm.symm.nodup hpool) hc hc2

/-- A concrete two-node allocator state. -/
def numaExample : NumaCtl :=
  { node_list := [0, 1],
    table := fun j => if j = 0 then [10, 11] else [20, 21] }

/-- Witness for C7: taking 2 CPUs from the example state hits node 0 and
pops its CPUs off the end of the free list. -/
theorem claim_C7_witness :
    numaExample.node_list.Nodup ∧
    NumaCtl.firstFit 2 numaExample.table numaExample.node_list = some 0 ∧
    (NumaCtl.get_cpu_list numaExample 2).1 =
      (numaExample.table 0).reverse.take 2 :=
  ⟨by decide, rfl, ((claim_C7 numaExample 2 (by decide)).1 0 rfl).2.2.1⟩

/-- Witness for C10 at concrete fragments: the element options come out
reversed, after the binary and base options. -/
theorem claim_C10_witness :
    CCompute.get_commandline "qemu-system-x86_64" "-vnc :1"
        (CCompute.element_options "C" "M" "S" "N" "I") =
      "qemu-system-x86_64" ++ " " ++ "-vnc :1" ++ " " ++ "I" ++ " " ++ "N" ++
        " " ++ "S" ++ " " ++ "M" ++ " " ++ "C" ++ " " :=
  (claim_C10 "qemu-system-x86_64" "-vnc :1" "C" "M" "S" "N" "I").1
